import Mathlib

/-!
Verification of the resumable NOAA bulk-fetch core.

Shallow embedding of the two fetch strategies of the repository:

* `src/DataAcqusitionLab/make_requests.py` — offset-mode fetcher
  (`make_api_request`, `check_existing_files`, `main`);
* `src/NOAAMonthlySummaries/data/monthly_summaries/fetch_monthly_data.py` —
  date-mode fetcher (`create_date_ranges`, `make_api_request`, `main`).

Network responses are modelled as oracles (one response per attempt /
per chunk); the filesystem is modelled as an existence oracle for the
offset mode and as a directory listing for the date mode.  The fields
`attempts`, `slept`, `fetched`, `completed`, `saved` are instrumentation:
they count what the Python code does (requests issued, seconds slept,
chunks fetched / counted successful / newly written) without changing
its control flow.
-/

namespace NoaaFetch

/-- A Python value decoded from JSON (`json.loads` result).  Objects are
association lists of string keys. -/
inductive JsonVal : Type where
  | null
  | bool (b : Bool)
  | num (n : Int)
  | str (s : String)
  | arr (elems : List JsonVal)
  | obj (fields : List (String × JsonVal))

/-- Python truthiness of a decoded JSON value (`if data:`). -/
def JsonVal.truthy : JsonVal → Bool
  | .null => false
  | .bool b => b
  | .num n => n != 0
  | .str s => s != ""
  | .arr elems => !elems.isEmpty
  | .obj fields => !fields.isEmpty

/-- Python `'key' in data` for a decoded JSON object.  The claims only
exercise object bodies; for non-object values Python's `in` either tests
element membership or raises, neither of which any claim reaches, so we
return `false` there. -/
def JsonVal.containsKey : JsonVal → String → Bool
  | .obj fields, k => fields.any (fun p => p.1 = k)
  | _, _ => false

/-- Python `data.get(k, default)` on a dict modelled as an association list. -/
def dictGet (fields : List (String × JsonVal)) (k : String) (default : JsonVal) : JsonVal :=
  (fields.lookup k).getD default

/-- Python `data[k] = v` on a dict: replace the binding if the key exists,
otherwise append it. -/
def dictSet (fields : List (String × JsonVal)) (k : String) (v : JsonVal) :
    List (String × JsonVal) :=
  if fields.any (fun p => p.1 = k) then
    fields.map (fun p => if p.1 = k then (k, v) else p)
  else
    fields ++ [(k, v)]

/-! ## Offset mode (`make_requests.py`) -/

/-- `LIMIT = 1000` -/
def LIMIT : Nat := 1000

/-- `TOTAL_RECORDS = 38859` -/
def TOTAL_RECORDS : Nat := 38859

/-- `MAX_RETRIES = 3` -/
def MAX_RETRIES : Nat := 3

/-- What one `urllib` request can come back as, seen from inside the
`try` of `make_api_request`:

* `ok body` — 2xx response whose body `json.loads` decodes to `body`;
* `badBody e` — 2xx response whose body fails to decode (empty or
  malformed body; `json.loads` raises, caught by `except Exception`);
* `httpErr code reason` — `urllib.error.HTTPError` with that status;
* `netErr e` — any other exception (connection error, timeout, ...),
  caught by `except Exception`. -/
inductive OResp : Type where
  | ok (body : JsonVal)
  | badBody (excMsg : String)
  | httpErr (code : Nat) (reason : String)
  | netErr (excMsg : String)

/-- Transient response classes of the offset-mode retry logic: HTTP 503,
HTTP 429, and anything landing in `except Exception`. -/
def OResp.transient : OResp → Bool
  | .ok _ => false
  | .badBody _ => true
  | .httpErr code _ => code == 503 || code == 429
  | .netErr _ => true

/-- Return value of the offset-mode `make_api_request`: the Python pair
`(data, error)` plus instrumentation (`attempts` = number of HTTP
requests issued, `slept` = total seconds spent in `time.sleep` inside
the function). -/
structure FetchResult where
  data : Option JsonVal
  error : Option String
  attempts : Nat
  slept : Nat

/-- `make_api_request(offset, limit, retry_count)` from
`make_requests.py`.  `env n` is the response the network yields to the
call made with `retry_count = n`; since every retry increments
`retry_count` by one, `env n` is the response to the n-th attempt
(0-indexed) for this chunk. -/
def make_api_request (env : Nat → OResp) (retry_count : Nat) : FetchResult :=
  match env retry_count with
  | .ok body =>
      -- data = json.loads(...); return data, None
      { data := some body, error := none, attempts := 1, slept := 0 }
  | .httpErr code reason =>
      let error_msg := "HTTP Error " ++ toString code ++ ": " ++ reason
      if code = 503 then
        if h : retry_count < MAX_RETRIES then
          let wait_time := (retry_count + 1) * 5
          let r := make_api_request env (retry_count + 1)
          { r with attempts := r.attempts + 1, slept := r.slept + wait_time }
        else
          { data := none, error := some ("Max retries exceeded: " ++ error_msg),
            attempts := 1, slept := 0 }
      else if code = 429 then
        -- the 429 branch sleeps before checking the retry budget
        let wait_time := 30
        if h : retry_count < MAX_RETRIES then
          let r := make_api_request env (retry_count + 1)
          { r with attempts := r.attempts + 1, slept := r.slept + wait_time }
        else
          -- falls through to the common `return None, error_msg`
          { data := none, error := some error_msg, attempts := 1, slept := wait_time }
      else
        { data := none, error := some error_msg, attempts := 1, slept := 0 }
  | .badBody e | .netErr e =>
      let error_msg := "Network error: " ++ e
      if h : retry_count < MAX_RETRIES then
        let r := make_api_request env (retry_count + 1)
        { r with attempts := r.attempts + 1, slept := r.slept + 5 }
      else
        { data := none, error := some error_msg, attempts := 1, slept := 0 }
  termination_by MAX_RETRIES - retry_count
  decreasing_by all_goals omega

section MakeApiRequestEquations

variable (env : Nat → OResp) (retry_count : Nat)

theorem make_api_request_ok {body : JsonVal} (h : env retry_count = .ok body) :
    make_api_request env retry_count =
      { data := some body, error := none, attempts := 1, slept := 0 } := by
  rw [make_api_request.eq_def, h]

theorem make_api_request_503_retry {reason : String}
    (h : env retry_count = .httpErr 503 reason) (hrc : retry_count < MAX_RETRIES) :
    make_api_request env retry_count =
      { make_api_request env (retry_count + 1) with
          attempts := (make_api_request env (retry_count + 1)).attempts + 1,
          slept := (make_api_request env (retry_count + 1)).slept + (retry_count + 1) * 5 } := by
  rw [make_api_request.eq_def, h]
  simp [hrc]

theorem make_api_request_503_stop {reason : String}
    (h : env retry_count = .httpErr 503 reason) (hrc : ¬ retry_count < MAX_RETRIES) :
    make_api_request env retry_count =
      { data := none,
        error := some ("Max retries exceeded: " ++ ("HTTP Error 503: " ++ reason)),
        attempts := 1, slept := 0 } := by
  rw [make_api_request.eq_def, h]
  simp only [hrc]
  rfl

theorem make_api_request_429_retry {reason : String}
    (h : env retry_count = .httpErr 429 reason) (hrc : retry_count < MAX_RETRIES) :
    make_api_request env retry_count =
      { make_api_request env (retry_count + 1) with
          attempts := (make_api_request env (retry_count + 1)).attempts + 1,
          slept := (make_api_request env (retry_count + 1)).slept + 30 } := by
  rw [make_api_request.eq_def, h]
  simp [hrc]

theorem make_api_request_429_stop {reason : String}
    (h : env retry_count = .httpErr 429 reason) (hrc : ¬ retry_count < MAX_RETRIES) :
    make_api_request env retry_count =
      { data := none, error := some ("HTTP Error 429: " ++ reason),
        attempts := 1, slept := 30 } := by
  rw [make_api_request.eq_def, h]
  simp only [hrc]
  rfl

theorem make_api_request_http_other {code : Nat} {reason : String}
    (h : env retry_count = .httpErr code reason) (h503 : code ≠ 503) (h429 : code ≠ 429) :
    make_api_request env retry_count =
      { data := none, error := some ("HTTP Error " ++ toString code ++ ": " ++ reason),
        attempts := 1, slept := 0 } := by
  rw [make_api_request.eq_def, h]
  simp [h503, h429]

theorem make_api_request_net_retry {e : String}
    (h : env retry_count = .netErr e) (hrc : retry_count < MAX_RETRIES) :
    make_api_request env retry_count =
      { make_api_request env (retry_count + 1) with
          attempts := (make_api_request env (retry_count + 1)).attempts + 1,
          slept := (make_api_request env (retry_count + 1)).slept + 5 } := by
  rw [make_api_request.eq_def, h]
  simp [hrc]

theorem make_api_request_net_stop {e : String}
    (h : env retry_count = .netErr e) (hrc : ¬ retry_count < MAX_RETRIES) :
    make_api_request env retry_count =
      { data := none, error := some ("Network error: " ++ e),
        attempts := 1, slept := 0 } := by
  rw [make_api_request.eq_def, h]
  simp [hrc]

theorem make_api_request_bad_retry {e : String}
    (h : env retry_count = .badBody e) (hrc : retry_count < MAX_RETRIES) :
    make_api_request env retry_count =
      { make_api_request env (retry_count + 1) with
          attempts := (make_api_request env (retry_count + 1)).attempts + 1,
          slept := (make_api_request env (retry_count + 1)).slept + 5 } := by
  rw [make_api_request.eq_def, h]
  simp [hrc]

theorem make_api_request_bad_stop {e : String}
    (h : env retry_count = .badBody e) (hrc : ¬ retry_count < MAX_RETRIES) :
    make_api_request env retry_count =
      { data := none, error := some ("Network error: " ++ e),
        attempts := 1, slept := 0 } := by
  rw [make_api_request.eq_def, h]
  simp [hrc]

end MakeApiRequestEquations

/-- Exactly one of the Python pair `(data, error)` is set. -/
def FetchResult.exclusive (r : FetchResult) : Bool :=
  (r.data.isSome && r.error.isNone) || (r.data.isNone && r.error.isSome)

/-- Fuel-indexed invariant of the recursive retry logic: once
`MAX_RETRIES ≤ retry_count + k`, at most `k + 1` further attempts happen,
and the result always sets exactly one of `data`/`error`. -/
theorem make_api_request_invariant :
    ∀ (k : Nat) (env : Nat → OResp) (retry_count : Nat),
      MAX_RETRIES ≤ retry_count + k →
      (make_api_request env retry_count).attempts ≤ k + 1 ∧
      (make_api_request env retry_count).exclusive = true := by
  intro k
  induction k with
  | zero =>
    intro env rc hk
    have hrc : ¬ rc < MAX_RETRIES := by omega
    match h : env rc with
    | .ok body => rw [make_api_request_ok env rc h]; exact ⟨Nat.le_add_left 1 _, rfl⟩
    | .badBody e => rw [make_api_request_bad_stop env rc h hrc]; exact ⟨Nat.le_add_left 1 _, rfl⟩
    | .netErr e => rw [make_api_request_net_stop env rc h hrc]; exact ⟨Nat.le_add_left 1 _, rfl⟩
    | .httpErr code reason =>
      by_cases h503 : code = 503
      · subst h503; rw [make_api_request_503_stop env rc h hrc]; exact ⟨Nat.le_add_left 1 _, rfl⟩
      · by_cases h429 : code = 429
        · subst h429; rw [make_api_request_429_stop env rc h hrc]; exact ⟨Nat.le_add_left 1 _, rfl⟩
        · rw [make_api_request_http_other env rc h h503 h429]; exact ⟨Nat.le_add_left 1 _, rfl⟩
  | succ k ih =>
    intro env rc hk
    by_cases hrc : rc < MAX_RETRIES
    · have hrec := ih env (rc + 1) (by omega)
      match h : env rc with
      | .ok body => rw [make_api_request_ok env rc h]; exact ⟨Nat.le_add_left 1 _, rfl⟩
      | .badBody e =>
        rw [make_api_request_bad_retry env rc h hrc]
        exact ⟨Nat.add_le_add_right hrec.1 1, hrec.2⟩
      | .netErr e =>
        rw [make_api_request_net_retry env rc h hrc]
        exact ⟨Nat.add_le_add_right hrec.1 1, hrec.2⟩
      | .httpErr code reason =>
        by_cases h503 : code = 503
        · subst h503
          rw [make_api_request_503_retry env rc h hrc]
          exact ⟨Nat.add_le_add_right hrec.1 1, hrec.2⟩
        · by_cases h429 : code = 429
          · subst h429
            rw [make_api_request_429_retry env rc h hrc]
            exact ⟨Nat.add_le_add_right hrec.1 1, hrec.2⟩
          · rw [make_api_request_http_other env rc h h503 h429]; exact ⟨Nat.le_add_left 1 _, rfl⟩
    · match h : env rc with
      | .ok body => rw [make_api_request_ok env rc h]; exact ⟨Nat.le_add_left 1 _, rfl⟩
      | .badBody e => rw [make_api_request_bad_stop env rc h hrc]; exact ⟨Nat.le_add_left 1 _, rfl⟩
      | .netErr e => rw [make_api_request_net_stop env rc h hrc]; exact ⟨Nat.le_add_left 1 _, rfl⟩
      | .httpErr code reason =>
        by_cases h503 : code = 503
        · subst h503; rw [make_api_request_503_stop env rc h hrc]; exact ⟨Nat.le_add_left 1 _, rfl⟩
        · by_cases h429 : code = 429
          · subst h429; rw [make_api_request_429_stop env rc h hrc]; exact ⟨Nat.le_add_left 1 _, rfl⟩
          · rw [make_api_request_http_other env rc h h503 h429]; exact ⟨Nat.le_add_left 1 _, rfl⟩

/-- The error message `make_api_request` ends with when its retry budget
is exhausted on a transient response `r` (the response of the final
attempt): only the 503 branch wraps the message in
`"Max retries exceeded: "`. -/
def exhaustedErrMsg : OResp → String
  | .ok _ => ""
  | .badBody e => "Network error: " ++ e
  | .netErr e => "Network error: " ++ e
  | .httpErr code reason =>
      if code = 503 then
        "Max retries exceeded: " ++ ("HTTP Error " ++ toString code ++ ": " ++ reason)
      else "HTTP Error " ++ toString code ++ ": " ++ reason

/-- Does an error message note retry exhaustion?  (Character-level
prefix check for `"Max retries exceeded"`.) -/
def notesRetryExhaustion (s : String) : Bool :=
  "Max retries exceeded".data.isPrefixOf s.data

/-- Final attempt of an all-transient sequence: at `retry_count = MAX_RETRIES`
a transient response terminates with one attempt and the exhaustion message. -/
theorem make_api_request_exhausted (env : Nat → OResp)
    (ht : (env MAX_RETRIES).transient = true) :
    make_api_request env MAX_RETRIES =
      { data := none, error := some (exhaustedErrMsg (env MAX_RETRIES)),
        attempts := 1, slept := (make_api_request env MAX_RETRIES).slept } := by
  have hrc : ¬ MAX_RETRIES < MAX_RETRIES := by omega
  match h : env MAX_RETRIES with
  | .ok body => simp [OResp.transient, h] at ht
  | .badBody e => rw [make_api_request_bad_stop env MAX_RETRIES h hrc]; rfl
  | .netErr e => rw [make_api_request_net_stop env MAX_RETRIES h hrc]; rfl
  | .httpErr code reason =>
    rw [h] at ht
    simp only [OResp.transient, Bool.or_eq_true, beq_iff_eq] at ht
    rcases ht with h503 | h429
    · subst h503
      rw [make_api_request_503_stop env MAX_RETRIES h hrc]
      rfl
    · subst h429
      rw [make_api_request_429_stop env MAX_RETRIES h hrc]
      rfl

/-- One transient response below the retry budget: the call recurses, adding
one attempt and leaving `data`/`error` to the recursive call. -/
theorem make_api_request_transient_step (env : Nat → OResp) (rc : Nat)
    (hrc : rc < MAX_RETRIES) (ht : (env rc).transient = true) :
    (make_api_request env rc).data = (make_api_request env (rc + 1)).data ∧
    (make_api_request env rc).error = (make_api_request env (rc + 1)).error ∧
    (make_api_request env rc).attempts = (make_api_request env (rc + 1)).attempts + 1 := by
  match h : env rc with
  | .ok body => simp [OResp.transient, h] at ht
  | .badBody e => rw [make_api_request_bad_retry env rc h hrc]; exact ⟨rfl, rfl, rfl⟩
  | .netErr e => rw [make_api_request_net_retry env rc h hrc]; exact ⟨rfl, rfl, rfl⟩
  | .httpErr code reason =>
    rw [h] at ht
    simp only [OResp.transient, Bool.or_eq_true, beq_iff_eq] at ht
    rcases ht with h503 | h429
    · subst h503
      rw [make_api_request_503_retry env rc h hrc]
      exact ⟨rfl, rfl, rfl⟩
    · subst h429
      rw [make_api_request_429_retry env rc h hrc]
      exact ⟨rfl, rfl, rfl⟩

/-- A chunk whose every attempt is transient consumes the whole retry
budget: starting from `retry_count = rc ≤ MAX_RETRIES` it makes exactly
`MAX_RETRIES + 1 - rc` attempts and fails with the exhaustion message of
the final attempt's response. -/
theorem make_api_request_all_transient (env : Nat → OResp)
    (ht : ∀ n, (env n).transient = true) :
    ∀ (d : Nat) (rc : Nat), rc + d = MAX_RETRIES →
      (make_api_request env rc).data = none ∧
      (make_api_request env rc).error = some (exhaustedErrMsg (env MAX_RETRIES)) ∧
      (make_api_request env rc).attempts = d + 1 := by
  intro d
  induction d with
  | zero =>
    intro rc hrc
    have hrc' : rc = MAX_RETRIES := by omega
    subst hrc'
    rw [make_api_request_exhausted env (ht MAX_RETRIES)]
    exact ⟨rfl, rfl, rfl⟩
  | succ d ih =>
    intro rc hrc
    have hlt : rc < MAX_RETRIES := by omega
    obtain ⟨hd, he, ha⟩ := make_api_request_transient_step env rc hlt (ht rc)
    obtain ⟨hd', he', ha'⟩ := ih (rc + 1) (by omega)
    refine ⟨hd.trans hd', he.trans he', ?_⟩
    rw [ha, ha']

/-! ## Offset-mode chunk planning (`main`, lines 113/129/130) -/

/-- `num_requests = (TOTAL_RECORDS + LIMIT - 1) // LIMIT`, generalized over
the two constants it reads. -/
def plannedChunkCount (total_units chunk_size : Nat) : Nat :=
  (total_units + chunk_size - 1) / chunk_size

/-- `offset = i * LIMIT + 1` (first logical offset of chunk `i`). -/
def chunkStart (chunk_size i : Nat) : Nat := i * chunk_size + 1

/-- `min(offset + LIMIT - 1, TOTAL_RECORDS)` (last logical offset of chunk `i`). -/
def chunkEnd (total_units chunk_size i : Nat) : Nat :=
  min (chunkStart chunk_size i + chunk_size - 1) total_units

/-- `num_requests` with the constants of `make_requests.py`. -/
def num_requests : Nat := plannedChunkCount TOTAL_RECORDS LIMIT

theorem plannedChunkCount_eq (total chunk_size : Nat) (ht : 0 < total)
    (hc : 0 < chunk_size) :
    plannedChunkCount total chunk_size = (total - 1) / chunk_size + 1 := by
  rw [plannedChunkCount, show total + chunk_size - 1 = (total - 1) + chunk_size by omega,
    Nat.add_div_right _ hc]

/-- The planned chunk count is the ceiling of `total / chunk_size`:
the last chunk index reaches `total` and the one before does not. -/
theorem plannedChunkCount_ceil (total chunk_size : Nat) (ht : 0 < total)
    (hc : 0 < chunk_size) :
    chunk_size * (plannedChunkCount total chunk_size - 1) < total ∧
    total ≤ chunk_size * plannedChunkCount total chunk_size := by
  rw [plannedChunkCount_eq total chunk_size ht hc]
  have h1 : (total - 1) / chunk_size * chunk_size ≤ total - 1 :=
    Nat.div_mul_le_self _ _
  have h2 : total - 1 < (total - 1) / chunk_size * chunk_size + chunk_size :=
    Nat.lt_div_mul_add hc
  have h3 : chunk_size * ((total - 1) / chunk_size + 1 - 1) =
      (total - 1) / chunk_size * chunk_size := by
    rw [Nat.add_sub_cancel, Nat.mul_comm]
  have h4 : chunk_size * ((total - 1) / chunk_size + 1) =
      (total - 1) / chunk_size * chunk_size + chunk_size := by
    rw [Nat.mul_add, Nat.mul_comm, Nat.mul_one]
  omega

/-- Every logical offset in `[1, total]` lies in exactly one planned chunk. -/
theorem chunk_cover_unique (total chunk_size : Nat) (ht : 0 < total)
    (hc : 0 < chunk_size) (x : Nat) (hx1 : 1 ≤ x) (hx2 : x ≤ total) :
    ∃ i, i < plannedChunkCount total chunk_size ∧
      chunkStart chunk_size i ≤ x ∧ x ≤ chunkEnd total chunk_size i ∧
      ∀ j, chunkStart chunk_size j ≤ x → x ≤ chunkEnd total chunk_size j → j = i := by
  refine ⟨(x - 1) / chunk_size, ?_, ?_, ?_, ?_⟩
  · rw [plannedChunkCount_eq total chunk_size ht hc]
    have := Nat.div_le_div_right (c := chunk_size) (show x - 1 ≤ total - 1 by omega)
    omega
  · have h1 : (x - 1) / chunk_size * chunk_size ≤ x - 1 := Nat.div_mul_le_self _ _
    rw [chunkStart]
    omega
  · have h2 : x - 1 < (x - 1) / chunk_size * chunk_size + chunk_size :=
      Nat.lt_div_mul_add hc
    rw [chunkEnd, chunkStart]
    omega
  · intro j hj1 hj2
    rw [chunkStart] at hj1
    rw [chunkEnd, chunkStart] at hj2
    have hlo : j * chunk_size ≤ x - 1 := by omega
    have hmin : x ≤ j * chunk_size + 1 + chunk_size - 1 := le_trans hj2 (Nat.min_le_left _ _)
    have hhi : x - 1 < (j + 1) * chunk_size := by
      have : (j + 1) * chunk_size = j * chunk_size + chunk_size := by ring
      omega
    exact (Nat.div_eq_of_lt_le hlo hhi).symm

/-- Planned chunks never extend past each other: offsets of chunk `i` are
distinct from offsets of chunk `j ≠ i` (immediate from uniqueness). -/
theorem chunk_no_overlap (total chunk_size : Nat) (ht : 0 < total)
    (hc : 0 < chunk_size) (i j x : Nat)
    (hi1 : chunkStart chunk_size i ≤ x) (hi2 : x ≤ chunkEnd total chunk_size i)
    (hj1 : chunkStart chunk_size j ≤ x) (hj2 : x ≤ chunkEnd total chunk_size j) :
    i = j := by
  have hx1 : 1 ≤ x := le_trans (by rw [chunkStart]; omega) hi1
  have hx2 : x ≤ total := le_trans hi2 (by rw [chunkEnd]; exact Nat.min_le_right _ _)
  obtain ⟨k, -, -, -, huniq⟩ := chunk_cover_unique total chunk_size ht hc x hx1 hx2
  rw [huniq i hi1 hi2, huniq j hj1 hj2]

/-- Rewriting the chunk upper bound in the spec's form. -/
theorem chunkEnd_eq (total chunk_size i : Nat) (hc : 0 < chunk_size) :
    chunkEnd total chunk_size i = min ((i + 1) * chunk_size) total := by
  rw [chunkEnd, chunkStart]
  have : (i + 1) * chunk_size = i * chunk_size + chunk_size := by ring
  congr 1
  omega

/-! ## Date mode (`fetch_monthly_data.py`) -/

/-- `START_YEAR = 1938` -/
def START_YEAR : Nat := 1938

/-- `END_YEAR = 2018` -/
def END_YEAR : Nat := 2018

/-- `CHUNK_SIZE = 10` -/
def CHUNK_SIZE : Nat := 10

/-- One entry of the list built by `create_date_ranges`. -/
structure DateRange where
  start_year : Nat
  end_year : Nat
  start_date : String
  end_date : String
  filename : String
deriving DecidableEq

/-- The dict appended per iteration of `create_date_ranges`. -/
def mkDateRange (current_year end_year : Nat) : DateRange :=
  { start_year := current_year
    end_year := end_year
    start_date := toString current_year ++ "-01-01"
    end_date := toString end_year ++ "-12-31"
    filename := "FIPS10003_avg_" ++ toString current_year ++ "_to_" ++ toString end_year
      ++ ".json" }

/-- The `while current_year <= END_YEAR` loop of `create_date_ranges`,
generalized over the three constants it reads.  The loop advances
`current_year` by `ypc` per iteration, so it terminates exactly when
`ypc > 0`; that precondition is carried as an argument. -/
def create_date_ranges_from (ey ypc : Nat) (hypc : 0 < ypc) (current_year : Nat) :
    List DateRange :=
  if h : current_year ≤ ey then
    let end_year := min (current_year + ypc - 1) ey
    mkDateRange current_year end_year :: create_date_ranges_from ey ypc hypc (current_year + ypc)
  else []
  termination_by ey + 1 - current_year
  decreasing_by omega

/-- `create_date_ranges()` generalized over `START_YEAR`, `END_YEAR`,
`CHUNK_SIZE`. -/
def create_date_ranges (sy ey ypc : Nat) (hypc : 0 < ypc) : List DateRange :=
  create_date_ranges_from ey ypc hypc sy

/-- `create_date_ranges()` with the constants of `fetch_monthly_data.py`. -/
def date_ranges : List DateRange :=
  create_date_ranges START_YEAR END_YEAR CHUNK_SIZE (by decide)

theorem create_date_ranges_from_stop (ey ypc : Nat) (hypc : 0 < ypc) (cy : Nat)
    (h : ¬ cy ≤ ey) : create_date_ranges_from ey ypc hypc cy = [] := by
  rw [create_date_ranges_from.eq_def]
  simp [h]

theorem create_date_ranges_from_step (ey ypc : Nat) (hypc : 0 < ypc) (cy : Nat)
    (h : cy ≤ ey) :
    create_date_ranges_from ey ypc hypc cy =
      mkDateRange cy (min (cy + ypc - 1) ey) ::
        create_date_ranges_from ey ypc hypc (cy + ypc) := by
  rw [create_date_ranges_from.eq_def]
  simp [h]

/-- Element characterization of the date-range loop: the i-th entry exists
iff the i-th window start is within range, and covers
`[cy + i*ypc, min (cy + i*ypc + ypc - 1) ey]`. -/
theorem create_date_ranges_from_getElem? (ey ypc : Nat) (hypc : 0 < ypc) :
    ∀ (n cy : Nat), ey + 1 - cy ≤ n → ∀ (i : Nat),
      (create_date_ranges_from ey ypc hypc cy)[i]? =
        if cy + i * ypc ≤ ey then
          some (mkDateRange (cy + i * ypc) (min (cy + i * ypc + ypc - 1) ey))
        else none := by
  intro n
  induction n with
  | zero =>
    intro cy hn i
    have hcy : ¬ cy ≤ ey := by omega
    rw [create_date_ranges_from_stop ey ypc hypc cy hcy]
    have : ¬ cy + i * ypc ≤ ey := by
      have : cy ≤ cy + i * ypc := Nat.le_add_right _ _
      omega
    simp [this]
  | succ n ih =>
    intro cy hn i
    by_cases hcy : cy ≤ ey
    · rw [create_date_ranges_from_step ey ypc hypc cy hcy]
      match i with
      | 0 => simp [hcy]
      | i + 1 =>
        rw [List.getElem?_cons_succ, ih (cy + ypc) (by omega) i]
        have harith : cy + ypc + i * ypc = cy + (i + 1) * ypc := by
          have : (i + 1) * ypc = i * ypc + ypc := by ring
          omega
        rw [harith]
    · rw [create_date_ranges_from_stop ey ypc hypc cy hcy]
      have : ¬ cy + i * ypc ≤ ey := by
        have : cy ≤ cy + i * ypc := Nat.le_add_right _ _
        omega
      simp [this]

/-- `getElem?` characterization at the public entry point. -/
theorem create_date_ranges_getElem? (sy ey ypc : Nat) (hypc : 0 < ypc) (i : Nat) :
    (create_date_ranges sy ey ypc hypc)[i]? =
      if sy + i * ypc ≤ ey then
        some (mkDateRange (sy + i * ypc) (min (sy + i * ypc + ypc - 1) ey))
      else none :=
  create_date_ranges_from_getElem? ey ypc hypc (ey + 1 - sy) sy (by omega) i

/-- Index `i` is planned iff the i-th window start is at most `end_year`. -/
theorem create_date_ranges_length_iff (sy ey ypc : Nat) (hypc : 0 < ypc) (i : Nat) :
    i < (create_date_ranges sy ey ypc hypc).length ↔ sy + i * ypc ≤ ey := by
  constructor
  · intro h
    have h' := create_date_ranges_getElem? sy ey ypc hypc i
    rw [List.getElem?_eq_getElem h] at h'
    by_contra hc
    rw [if_neg hc] at h'
    exact Option.noConfusion h'
  · intro h
    have h' := create_date_ranges_getElem? sy ey ypc hypc i
    rw [if_pos h] at h'
    exact (List.getElem?_eq_some_iff.mp h').1

/-- Concrete value of `create_date_ranges()` at the constants of
`fetch_monthly_data.py`: nine ten-year windows, the last clamped to 2018. -/
theorem date_ranges_eq :
    date_ranges =
      [mkDateRange 1938 1947, mkDateRange 1948 1957, mkDateRange 1958 1967,
       mkDateRange 1968 1977, mkDateRange 1978 1987, mkDateRange 1988 1997,
       mkDateRange 1998 2007, mkDateRange 2008 2017, mkDateRange 2018 2018] := by
  apply List.ext_getElem?
  intro i
  rw [date_ranges, create_date_ranges_getElem?]
  match i with
  | 0 => decide
  | 1 => decide
  | 2 => decide
  | 3 => decide
  | 4 => decide
  | 5 => decide
  | 6 => decide
  | 7 => decide
  | 8 => decide
  | i + 9 =>
    rw [if_neg (by rw [START_YEAR, END_YEAR, CHUNK_SIZE]; omega)]
    rw [List.getElem?_eq_none (by simp)]

/-- What one `requests.get` call can come back as, seen from inside the
`try` of the date-mode `make_api_request`:

* `ok body` — 2xx, non-empty content, `response.json()` decodes to `body`;
* `okUndecodable e` — 2xx, non-empty content, `response.json()` raises;
* `okEmpty` — 2xx with empty `response.content`;
* `httpErr e` — non-2xx status: `raise_for_status()` raises
  `requests.HTTPError`, a `RequestException`;
* `netErr e` — transport-level `requests.exceptions.RequestException`
  (connection error, timeout, ...). -/
inductive DResp : Type where
  | ok (body : JsonVal)
  | okUndecodable (excMsg : String)
  | okEmpty
  | httpErr (excMsg : String)
  | netErr (excMsg : String)

/-- What a call of the date-mode `make_api_request` does: either it
returns the Python pair `(data, error)`, or an exception type none of its
handlers catch escapes it (`fault`). -/
inductive DResult : Type where
  | ret (data : Option JsonVal) (error : Option String)
  | fault (excMsg : String)

/-- `ret` with exactly one of `data`/`error` present. -/
def DResult.exclusive : DResult → Bool
  | .ret (some _) none => true
  | .ret none (some _) => true
  | _ => false

/-- `DResult.ret` (no escaping exception)? -/
def DResult.isRet : DResult → Bool
  | .ret _ _ => true
  | .fault _ => false

/-- Result of the date-mode `make_api_request` plus instrumentation:
`attempts` counts HTTP requests issued (always exactly one — the function
has no retry logic). -/
structure DOutcome where
  result : DResult
  attempts : Nat

/-- The projection applied per record of `results`:
`{"date": item.get("date"), ..., "value": item.get("value")}`.
`item.get` is a dict method, so a non-dict item makes Python raise
`AttributeError`, which no handler catches — modelled as `none`. -/
def adjust_item : JsonVal → Option JsonVal
  | .obj fs => some (.obj
      [("date", dictGet fs "date" .null),
       ("datatype", dictGet fs "datatype" .null),
       ("station", dictGet fs "station" .null),
       ("attributes", dictGet fs "attributes" .null),
       ("value", dictGet fs "value" .null)])
  | _ => none

/-- `make_api_request(start_date, end_date)` from `fetch_monthly_data.py`.
There is no retry logic: exactly one request is issued, then the response
is classified.  On a decodable 2xx body the code iterates
`data.get('results', [])` and rebuilds `data['results']` from the fixed
field projection.  A body that is not a JSON object (`data.get` missing),
or whose `results` value is not an array, or an array with a non-object
item, makes the Python code raise an exception none of the two handlers
catch (`AttributeError`/`TypeError`); those are the `fault` results.
(`response.json()` raising is caught either by the `RequestException`
handler or by the `json.JSONDecodeError` handler depending on the
installed `requests` version; we model the explicit
`json.JSONDecodeError` handler.) -/
def d_make_api_request (resp : DResp) : DOutcome :=
  match resp with
  | .ok body =>
      match body with
      | .obj fields =>
          match dictGet fields "results" (.arr []) with
          | .arr results =>
              match results.mapM adjust_item with
              | some adjusted_results =>
                  { result := .ret (some (.obj (dictSet fields "results" (.arr adjusted_results))))
                      none,
                    attempts := 1 }
              | none => { result := .fault "AttributeError", attempts := 1 }
          | _ => { result := .fault "iteration over non-list", attempts := 1 }
      | _ => { result := .fault "AttributeError", attempts := 1 }
  | .okUndecodable e =>
      { result := .ret none (some ("JSON decode error: " ++ e)), attempts := 1 }
  | .okEmpty =>
      { result := .ret none (some "Empty response"), attempts := 1 }
  | .httpErr e =>
      { result := .ret none (some ("Request error: " ++ e)), attempts := 1 }
  | .netErr e =>
      { result := .ret none (some ("Request error: " ++ e)), attempts := 1 }

/-- The date-mode executor issues exactly one HTTP request per call,
whatever the response is. -/
theorem d_make_api_request_attempts (resp : DResp) :
    (d_make_api_request resp).attempts = 1 := by
  rw [d_make_api_request.eq_def]
  repeat' split
  all_goals rfl

/-! ## Offset-mode run controller (`main` of `make_requests.py`) -/

/-- `check_existing_files()`: for `i` in `range(39)`, keep the indices
whose file `data/locations_{i}.json` exists.  `store` is the
file-existence oracle (`False` everywhere models the missing `data`
directory). -/
def check_existing_files (store : Nat → Bool) : List Nat :=
  (List.range 39).filter (fun i => store i)

/-- The `if data and 'results' in data:` test of `main` applied to the
pair returned by `make_api_request` (`data = None` on failure is falsy,
like a decoded empty or null body). -/
def resultsOk (r : FetchResult) : Bool :=
  match r.data with
  | none => false
  | some v => v.truthy && v.containsKey "results"

/-- Python `error or "Unknown error"` (an absent or empty error string is
falsy). -/
def errorOr (e : Option String) : String :=
  match e with
  | some s => if s = "" then "Unknown error" else s
  | none => "Unknown error"

/-- Loop state of `main` plus instrumentation:
`successful_requests` and `failed_requests` are the Python variables;
`completed` records which chunk indices were counted successful (skipped
pre-existing plus newly saved), `fetched` which indices
`make_api_request` was invoked for, and `saved` which indices
`save_to_file` newly persisted. -/
structure RunState where
  successful_requests : Nat
  failed_requests : List (Nat × String)
  completed : List Nat
  fetched : List Nat
  saved : List Nat
deriving DecidableEq

/-- Initial loop state of `main`. -/
def initRun : RunState :=
  { successful_requests := 0, failed_requests := [], completed := [], fetched := [],
    saved := [] }

/-- One iteration of the `for i in range(num_requests)` loop of `main`.
`envs i n` is the network response to attempt `n` for chunk `i`;
`saveOk i` tells whether `save_to_file(data, i)` succeeds. -/
def processChunk (existing : List Nat) (envs : Nat → Nat → OResp) (saveOk : Nat → Bool)
    (st : RunState) (i : Nat) : RunState :=
  if i ∈ existing then
    -- skip if file already exists
    { st with successful_requests := st.successful_requests + 1,
              completed := st.completed ++ [i] }
  else
    let r := make_api_request (envs i) 0
    let st' := { st with fetched := st.fetched ++ [i] }
    if resultsOk r then
      if saveOk i then
        { st' with successful_requests := st'.successful_requests + 1,
                   completed := st'.completed ++ [i], saved := st'.saved ++ [i] }
      else
        { st' with failed_requests := st'.failed_requests ++ [(i, "File save error")] }
    else
      { st' with failed_requests := st'.failed_requests ++ [(i, errorOr r.error)] }

/-- `main()`: build `existing_files`, then run the chunk loop over
`range(num_requests)` from the initial counters. -/
def runMain (store : Nat → Bool) (envs : Nat → Nat → OResp) (saveOk : Nat → Bool) :
    RunState :=
  (List.range num_requests).foldl (processChunk (check_existing_files store) envs saveOk)
    initRun

/-- How one loop iteration classifies chunk `i`. -/
inductive ChunkFate : Type where
  | skipped
  | stored
  | failed (e : String)
deriving DecidableEq

/-- The classification `processChunk` applies to chunk `i` (pure function
of the oracles). -/
def chunkFate (existing : List Nat) (envs : Nat → Nat → OResp) (saveOk : Nat → Bool)
    (i : Nat) : ChunkFate :=
  if i ∈ existing then .skipped
  else
    let r := make_api_request (envs i) 0
    if resultsOk r then
      if saveOk i then .stored else .failed "File save error"
    else .failed (errorOr r.error)

def ChunkFate.isCompleted : ChunkFate → Bool
  | .skipped => true
  | .stored => true
  | .failed _ => false

def ChunkFate.isFetched : ChunkFate → Bool
  | .skipped => false
  | .stored => true
  | .failed _ => true

def ChunkFate.isStored : ChunkFate → Bool
  | .stored => true
  | _ => false

def ChunkFate.isFailed : ChunkFate → Bool
  | .failed _ => true
  | _ => false

def ChunkFate.errOf : ChunkFate → String
  | .failed e => e
  | _ => ""

theorem processChunk_eq_fate (existing : List Nat) (envs : Nat → Nat → OResp)
    (saveOk : Nat → Bool) (st : RunState) (i : Nat) :
    processChunk existing envs saveOk st i =
      match chunkFate existing envs saveOk i with
      | .skipped =>
          { st with successful_requests := st.successful_requests + 1,
                    completed := st.completed ++ [i] }
      | .stored =>
          { st with successful_requests := st.successful_requests + 1,
                    completed := st.completed ++ [i], fetched := st.fetched ++ [i],
                    saved := st.saved ++ [i] }
      | .failed e =>
          { st with failed_requests := st.failed_requests ++ [(i, e)],
                    fetched := st.fetched ++ [i] } := by
  rw [processChunk, chunkFate]
  by_cases hex : i ∈ existing
  · simp [hex]
  · simp only [hex, if_false]
    by_cases hok : resultsOk (make_api_request (envs i) 0)
    · by_cases hsave : saveOk i
      · simp [hok, hsave]
      · simp [hok, hsave]
    · simp [hok]

/-- Closed form of the chunk loop: each counter of the final state is a
filter of the processed index list by the per-chunk classification. -/
theorem foldl_processChunk (existing : List Nat) (envs : Nat → Nat → OResp)
    (saveOk : Nat → Bool) :
    ∀ (l : List Nat) (st : RunState),
      l.foldl (processChunk existing envs saveOk) st =
        { successful_requests := st.successful_requests +
            (l.filter (fun i => (chunkFate existing envs saveOk i).isCompleted)).length,
          failed_requests := st.failed_requests ++
            (l.filter (fun i => (chunkFate existing envs saveOk i).isFailed)).map
              (fun i => (i, (chunkFate existing envs saveOk i).errOf)),
          completed := st.completed ++
            l.filter (fun i => (chunkFate existing envs saveOk i).isCompleted),
          fetched := st.fetched ++
            l.filter (fun i => (chunkFate existing envs saveOk i).isFetched),
          saved := st.saved ++
            l.filter (fun i => (chunkFate existing envs saveOk i).isStored) } := by
  intro l
  induction l with
  | nil => intro st; simp
  | cons i l ih =>
    intro st
    rw [List.foldl_cons, ih, processChunk_eq_fate]
    rcases hF : chunkFate existing envs saveOk i with - | - | e
    · simp [List.filter_cons, hF, ChunkFate.isCompleted, ChunkFate.isFetched,
        ChunkFate.isStored, ChunkFate.isFailed]
      omega
    · simp [List.filter_cons, hF, ChunkFate.isCompleted, ChunkFate.isFetched,
        ChunkFate.isStored, ChunkFate.isFailed]
      omega
    · simp [List.filter_cons, hF, ChunkFate.isCompleted, ChunkFate.isFetched,
        ChunkFate.isStored, ChunkFate.isFailed, ChunkFate.errOf]

/-- Closed form of `main`. -/
theorem runMain_spec (store : Nat → Bool) (envs : Nat → Nat → OResp)
    (saveOk : Nat → Bool) :
    runMain store envs saveOk =
      { successful_requests :=
          ((List.range num_requests).filter (fun i =>
            (chunkFate (check_existing_files store) envs saveOk i).isCompleted)).length,
        failed_requests :=
          ((List.range num_requests).filter (fun i =>
            (chunkFate (check_existing_files store) envs saveOk i).isFailed)).map
            (fun i => (i, (chunkFate (check_existing_files store) envs saveOk i).errOf)),
        completed :=
          (List.range num_requests).filter (fun i =>
            (chunkFate (check_existing_files store) envs saveOk i).isCompleted),
        fetched :=
          (List.range num_requests).filter (fun i =>
            (chunkFate (check_existing_files store) envs saveOk i).isFetched),
        saved :=
          (List.range num_requests).filter (fun i =>
            (chunkFate (check_existing_files store) envs saveOk i).isStored) } := by
  rw [runMain, foldl_processChunk]
  simp [initRun]

/-! ## Date-mode run controller (`main` of `fetch_monthly_data.py`) -/

/-- Date-mode `check_existing_files()`: keep directory entries matching
`FIPS10003_avg_*.json`.  `dirListing` is the `os.listdir(DATA_DIR)`
result (the empty list models a missing directory too). -/
def d_check_existing_files (dirListing : List String) : List String :=
  dirListing.filter (fun f =>
    "FIPS10003_avg_".data.isPrefixOf f.data && ".json".data.isSuffixOf f.data)

/-- Truthiness of the returned `data` (`if data:`; `None` is falsy). -/
def dataTruthy : Option JsonVal → Bool
  | none => false
  | some v => v.truthy

/-- Loop state of the date-mode `main` plus instrumentation, mirroring
`RunState` with filenames as chunk identifiers (`failed` is the Python
list of failed filenames). -/
structure DRunState where
  successful : Nat
  failed : List String
  completed : List String
  fetched : List String
  saved : List String
deriving DecidableEq

/-- Initial loop state of the date-mode `main`. -/
def dInitRun : DRunState :=
  { successful := 0, failed := [], completed := [], fetched := [], saved := [] }

/-- One iteration of the `for i, range_info in enumerate(date_ranges, 1)`
loop.  If the executor lets an exception escape (`fault`), the whole run
aborts with that exception (`Except.error`); otherwise the loop body
classifies the returned pair. -/
def d_processChunk (existing : List String) (envs : String → DResp)
    (saveOk : String → Bool) (st : DRunState) (ri : DateRange) :
    Except String DRunState :=
  if ri.filename ∈ existing then
    -- skip if file already exists
    .ok { st with successful := st.successful + 1,
                  completed := st.completed ++ [ri.filename] }
  else
    match (d_make_api_request (envs ri.filename)).result with
    | .fault m => .error m
    | .ret data _error =>
        let st' := { st with fetched := st.fetched ++ [ri.filename] }
        .ok (if dataTruthy data then
              if saveOk ri.filename then
                { st' with successful := st'.successful + 1,
                           completed := st'.completed ++ [ri.filename],
                           saved := st'.saved ++ [ri.filename] }
              else { st' with failed := st'.failed ++ [ri.filename] }
            else { st' with failed := st'.failed ++ [ri.filename] })

/-- The chunk loop of the date-mode `main` over an arbitrary planned
list (instantiated with `date_ranges`). -/
def d_runOver (ranges : List DateRange) (existing : List String)
    (envs : String → DResp) (saveOk : String → Bool) : Except String DRunState :=
  ranges.foldlM (d_processChunk existing envs saveOk) dInitRun

/-- Date-mode `main()`: build `existing_files`, then loop over
`create_date_ranges()`. -/
def d_runMain (dirListing : List String) (envs : String → DResp)
    (saveOk : String → Bool) : Except String DRunState :=
  d_runOver date_ranges (d_check_existing_files dirListing) envs saveOk

/-- How one date-mode iteration classifies the chunk with filename `fn`
(meaningful when the executor does not fault on it). -/
def dChunkFate (existing : List String) (envs : String → DResp)
    (saveOk : String → Bool) (fn : String) : ChunkFate :=
  if fn ∈ existing then .skipped
  else
    match (d_make_api_request (envs fn)).result with
    | .fault m => .failed m
    | .ret data _error =>
        if dataTruthy data then
          if saveOk fn then .stored else .failed fn
        else .failed fn

/-- A response the date-mode executor survives (returns `ret` rather
than letting an exception escape). -/
def dBenign (envs : String → DResp) (fn : String) : Bool :=
  (d_make_api_request (envs fn)).result.isRet

/-- Closed form of the date-mode chunk loop, under the hypothesis that
the executor returns (rather than faults) on every chunk that is
actually fetched. -/
theorem d_foldl_processChunk (existing : List String) (envs : String → DResp)
    (saveOk : String → Bool) :
    ∀ (ranges : List DateRange) (st : DRunState),
      (∀ r ∈ ranges, r.filename ∉ existing → dBenign envs r.filename = true) →
      ranges.foldlM (d_processChunk existing envs saveOk) st =
        .ok
          { successful := st.successful +
              (ranges.filter (fun r =>
                (dChunkFate existing envs saveOk r.filename).isCompleted)).length,
            failed := st.failed ++
              (ranges.filter (fun r =>
                (dChunkFate existing envs saveOk r.filename).isFailed)).map
                (fun r => r.filename),
            completed := st.completed ++
              (ranges.filter (fun r =>
                (dChunkFate existing envs saveOk r.filename).isCompleted)).map
                (fun r => r.filename),
            fetched := st.fetched ++
              (ranges.filter (fun r =>
                (dChunkFate existing envs saveOk r.filename).isFetched)).map
                (fun r => r.filename),
            saved := st.saved ++
              (ranges.filter (fun r =>
                (dChunkFate existing envs saveOk r.filename).isStored)).map
                (fun r => r.filename) } := by
  intro ranges
  induction ranges with
  | nil =>
    intro st _
    simp
    rfl
  | cons r rs ih =>
    intro st hb
    rw [List.foldlM_cons]
    have hb' : ∀ r' ∈ rs, r'.filename ∉ existing → dBenign envs r'.filename = true :=
      fun r' hr' => hb r' (List.mem_cons_of_mem r hr')
    have hstep :
        ∀ st1 : DRunState,
          d_processChunk existing envs saveOk st r = .ok st1 →
          (do
            let s ← d_processChunk existing envs saveOk st r
            rs.foldlM (d_processChunk existing envs saveOk) s) =
            rs.foldlM (d_processChunk existing envs saveOk) st1 := by
      intro st1 h1
      rw [h1]
      rfl
    by_cases hex : r.filename ∈ existing
    · have h1 : d_processChunk existing envs saveOk st r =
          .ok { st with successful := st.successful + 1,
                        completed := st.completed ++ [r.filename] } := by
        rw [d_processChunk]
        simp [hex]
      have hF : dChunkFate existing envs saveOk r.filename = .skipped := by
        rw [dChunkFate]
        simp [hex]
      rw [hstep _ h1, ih _ hb']
      simp [List.filter_cons, hF, ChunkFate.isCompleted, ChunkFate.isFetched,
        ChunkFate.isStored, ChunkFate.isFailed]
      omega
    · have hben := hb r (List.mem_cons_self r rs) hex
      rw [dBenign] at hben
      rcases hres : (d_make_api_request (envs r.filename)).result with ⟨data, _err⟩ | m
      · by_cases hdt : dataTruthy data = true
        · by_cases hsave : saveOk r.filename = true
          · have h1 : d_processChunk existing envs saveOk st r =
                .ok { st with successful := st.successful + 1,
                              completed := st.completed ++ [r.filename],
                              fetched := st.fetched ++ [r.filename],
                              saved := st.saved ++ [r.filename] } := by
              rw [d_processChunk]
              simp [hex, hres, hdt, hsave]
            have hF : dChunkFate existing envs saveOk r.filename = .stored := by
              rw [dChunkFate]
              simp [hex, hres, hdt, hsave]
            rw [hstep _ h1, ih _ hb']
            simp [List.filter_cons, hF, ChunkFate.isCompleted, ChunkFate.isFetched,
              ChunkFate.isStored, ChunkFate.isFailed]
            omega
          · have h1 : d_processChunk existing envs saveOk st r =
                .ok { st with failed := st.failed ++ [r.filename],
                              fetched := st.fetched ++ [r.filename] } := by
              rw [d_processChunk]
              simp [hex, hres, hdt, hsave]
            have hF : dChunkFate existing envs saveOk r.filename = .failed r.filename := by
              rw [dChunkFate]
              simp [hex, hres, hdt, hsave]
            rw [hstep _ h1, ih _ hb']
            simp [List.filter_cons, hF, ChunkFate.isCompleted, ChunkFate.isFetched,
              ChunkFate.isStored, ChunkFate.isFailed]
        · have h1 : d_processChunk existing envs saveOk st r =
              .ok { st with failed := st.failed ++ [r.filename],
                            fetched := st.fetched ++ [r.filename] } := by
            rw [d_processChunk]
            simp [hex, hres, hdt]
          have hF : dChunkFate existing envs saveOk r.filename = .failed r.filename := by
            rw [dChunkFate]
            simp [hex, hres, hdt]
          rw [hstep _ h1, ih _ hb']
          simp [List.filter_cons, hF, ChunkFate.isCompleted, ChunkFate.isFetched,
            ChunkFate.isStored, ChunkFate.isFailed]
      · rw [hres] at hben
        exact absurd hben (by rw [DResult.isRet]; simp)

/-! ## Helper lemmas for the run-level claims -/

theorem length_filter_bool_not {α : Type} (p : α → Bool) (l : List α) :
    (l.filter p).length + (l.filter (fun a => !(p a))).length = l.length := by
  induction l with
  | nil => rfl
  | cons a l ih =>
    cases h : p a <;> simp [List.filter_cons, h] <;> omega

theorem map_fst_map_pair {α β : Type} (g : α → β) (l : List α) :
    (l.map (fun i => (i, g i))).map Prod.fst = l := by
  induction l with
  | nil => rfl
  | cons a l ih => simp [ih]

theorem mem_check_existing_files (store : Nat → Bool) (i : Nat) :
    i ∈ check_existing_files store ↔ i < 39 ∧ store i = true := by
  rw [check_existing_files, List.mem_filter, List.mem_range]

theorem ChunkFate.isCompleted_or_isFailed (f : ChunkFate) :
    f.isCompleted = true ∨ f.isFailed = true := by
  cases f <;> simp [ChunkFate.isCompleted, ChunkFate.isFailed]

theorem ChunkFate.not_isCompleted_and_isFailed (f : ChunkFate) :
    ¬(f.isCompleted = true ∧ f.isFailed = true) := by
  cases f <;> simp [ChunkFate.isCompleted, ChunkFate.isFailed]

theorem ChunkFate.isCompleted_of_not_isFailed {f : ChunkFate} (h : ¬ f.isFailed = true) :
    f.isCompleted = true := by
  cases f <;> simp [ChunkFate.isCompleted, ChunkFate.isFailed] at h ⊢

theorem chunkFate_skipped_of_mem {existing : List Nat} {envs : Nat → Nat → OResp}
    {saveOk : Nat → Bool} {i : Nat} (h : i ∈ existing) :
    chunkFate existing envs saveOk i = .skipped := by
  rw [chunkFate]
  simp [h]

theorem chunkFate_isFetched (existing : List Nat) (envs : Nat → Nat → OResp)
    (saveOk : Nat → Bool) (i : Nat) :
    (chunkFate existing envs saveOk i).isFetched = !(decide (i ∈ existing)) := by
  rw [chunkFate]
  by_cases hex : i ∈ existing
  · simp [hex, ChunkFate.isFetched]
  · rw [if_neg hex, decide_eq_false hex]
    by_cases hok : resultsOk (make_api_request (envs i) 0)
    · by_cases hsave : saveOk i
      · simp [hok, hsave, ChunkFate.isFetched]
      · simp [hok, hsave, ChunkFate.isFetched]
    · simp [hok, ChunkFate.isFetched]

theorem lookup_eq_none_of_not_containsKey {fields : List (String × JsonVal)} {k : String}
    (h : fields.any (fun p => p.1 = k) = false) : fields.lookup k = none := by
  induction fields with
  | nil => rfl
  | cons p fields ih =>
    simp only [List.any_cons, Bool.or_eq_false_iff, decide_eq_false_iff_not] at h
    rw [List.lookup_cons]
    have hk : (k == p.1) = false := by
      rw [beq_eq_false_iff_ne]
      exact fun he => h.1 (he ▸ rfl)
    rw [hk]
    exact ih h.2

/-! ## Claim theorems -/

/-- C1: offset-mode chunk planning.  For every `total_units > 0` and
`chunk_size > 0`, `main` plans exactly `ceil(total_units / chunk_size)`
requests; chunk `i` covers logical offsets `i*chunk_size + 1` through
`min((i+1)*chunk_size, total_units)`; every offset in `[1, total_units]`
lies in exactly one planned chunk (no gaps, no overlaps); and at the
constants of `make_requests.py` (`38859`, `1000`) there are 39 chunks,
chunk 0 covering 1–1000 and chunk 38 covering 38001–38859. -/
theorem offset_chunk_planning (total chunk_size : Nat) (ht : 0 < total)
    (hc : 0 < chunk_size) :
    (chunk_size * (plannedChunkCount total chunk_size - 1) < total ∧
      total ≤ chunk_size * plannedChunkCount total chunk_size) ∧
    (∀ i, chunkStart chunk_size i = i * chunk_size + 1 ∧
      chunkEnd total chunk_size i = min ((i + 1) * chunk_size) total) ∧
    (∀ x, 1 ≤ x → x ≤ total →
      ∃ i, i < plannedChunkCount total chunk_size ∧
        chunkStart chunk_size i ≤ x ∧ x ≤ chunkEnd total chunk_size i ∧
        ∀ j, chunkStart chunk_size j ≤ x → x ≤ chunkEnd total chunk_size j → j = i) ∧
    (num_requests = 39 ∧ plannedChunkCount TOTAL_RECORDS LIMIT = 39 ∧
      chunkStart LIMIT 0 = 1 ∧ chunkEnd TOTAL_RECORDS LIMIT 0 = 1000 ∧
      chunkStart LIMIT 38 = 38001 ∧ chunkEnd TOTAL_RECORDS LIMIT 38 = 38859) :=
  ⟨plannedChunkCount_ceil total chunk_size ht hc,
    fun i => ⟨rfl, chunkEnd_eq total chunk_size i hc⟩,
    fun x hx1 hx2 => chunk_cover_unique total chunk_size ht hc x hx1 hx2,
    by decide⟩

/-- Witness for C1 at the repository's constants. -/
theorem offset_chunk_planning_witness :
    num_requests = 39 ∧ plannedChunkCount TOTAL_RECORDS LIMIT = 39 ∧
    chunkStart LIMIT 0 = 1 ∧ chunkEnd TOTAL_RECORDS LIMIT 0 = 1000 ∧
    chunkStart LIMIT 38 = 38001 ∧ chunkEnd TOTAL_RECORDS LIMIT 38 = 38859 :=
  (offset_chunk_planning TOTAL_RECORDS LIMIT (by decide) (by decide)).2.2.2

/-- C2 counterexample: the claim asserts the retry bound
(`MAX_RETRIES + 1 = 4` attempts on an always-transient chunk, with an
error noting retry exhaustion) "for both the offset-mode and the
date-mode executor".  It fails twice: the date-mode `make_api_request`
has no retry logic at all (a transient transport error is attempted
exactly once), and in the offset mode a chunk that always yields
HTTP 429 is indeed attempted 4 times but the recorded error is the raw
`"HTTP Error 429: ..."` message, which does not note retry exhaustion. -/
theorem retry_bound_counterexample :
    (d_make_api_request (DResp.netErr "Connection timed out")).attempts = 1 ∧
    (d_make_api_request (DResp.netErr "Connection timed out")).attempts ≠ MAX_RETRIES + 1 ∧
    (make_api_request (fun _ => OResp.httpErr 429 "Too Many Requests") 0).error =
      some "HTTP Error 429: Too Many Requests" ∧
    notesRetryExhaustion "HTTP Error 429: Too Many Requests" = false := by
  refine ⟨rfl, by decide, ?_, by decide⟩
  have h := make_api_request_all_transient (fun _ => OResp.httpErr 429 "Too Many Requests")
    (fun _ => rfl) MAX_RETRIES 0 (by omega)
  exact h.2.1

/-- C2 (amended): in the offset mode a chunk whose every attempt yields a
transient failure (HTTP 503, HTTP 429, or a caught exception) is
attempted exactly `MAX_RETRIES + 1 = 4` times and then returns a failure
`(None, error)`; the error notes retry exhaustion (prefix
`"Max retries exceeded"`) exactly when the final attempt failed with
HTTP 503, and is the raw final error message otherwise.  The date-mode
executor has no retry logic: it attempts every chunk exactly once. -/
theorem retry_bound_amended (env : Nat → OResp)
    (ht : ∀ n, (env n).transient = true) :
    (make_api_request env 0).attempts = MAX_RETRIES + 1 ∧
    (make_api_request env 0).data = none ∧
    (make_api_request env 0).error = some (exhaustedErrMsg (env MAX_RETRIES)) ∧
    (∀ resp : DResp, (d_make_api_request resp).attempts = 1) := by
  obtain ⟨hd, he, ha⟩ := make_api_request_all_transient env ht MAX_RETRIES 0 (by omega)
  exact ⟨ha, hd, he, d_make_api_request_attempts⟩

/-- Witness for C2 (amended) on an all-503 response sequence. -/
theorem retry_bound_amended_witness :
    (make_api_request (fun _ => OResp.httpErr 503 "Service Unavailable") 0).attempts =
      MAX_RETRIES + 1 ∧
    (make_api_request (fun _ => OResp.httpErr 503 "Service Unavailable") 0).data = none ∧
    (make_api_request (fun _ => OResp.httpErr 503 "Service Unavailable") 0).error =
      some (exhaustedErrMsg (OResp.httpErr 503 "Service Unavailable")) ∧
    (∀ resp : DResp, (d_make_api_request resp).attempts = 1) :=
  retry_bound_amended (fun _ => OResp.httpErr 503 "Service Unavailable") (fun _ => rfl)

/-- C5: permanent-failure short-circuit.  A chunk whose first response is
an HTTP error other than 503 and 429 is attempted exactly once, with no
sleep and no retry, and the executor immediately returns the failure
carrying that status in the error detail. -/
theorem permanent_failure_short_circuit (env : Nat → OResp) (code : Nat) (reason : String)
    (h503 : code ≠ 503) (h429 : code ≠ 429) (h : env 0 = .httpErr code reason) :
    make_api_request env 0 =
      { data := none, error := some ("HTTP Error " ++ toString code ++ ": " ++ reason),
        attempts := 1, slept := 0 } :=
  make_api_request_http_other env 0 h h503 h429

/-- Witness for C5 at HTTP 404. -/
theorem permanent_failure_short_circuit_witness :
    make_api_request (fun _ => OResp.httpErr 404 "Not Found") 0 =
      { data := none, error := some ("HTTP Error " ++ toString 404 ++ ": " ++ "Not Found"),
        attempts := 1, slept := 0 } :=
  permanent_failure_short_circuit (fun _ => OResp.httpErr 404 "Not Found") 404 "Not Found"
    (by decide) (by decide) rfl

/-- C10: the offset-mode retry counter is shared across all transient
failure classes, so whatever the interleaving of responses, the
self-recursive `make_api_request` makes at most `MAX_RETRIES + 1`
attempts from any starting `retry_count` (in particular from the
caller's `retry_count = 0`). -/
theorem shared_retry_budget_bounds_recursion (env : Nat → OResp) (retry_count : Nat) :
    (make_api_request env retry_count).attempts ≤ MAX_RETRIES + 1 :=
  le_trans (make_api_request_invariant MAX_RETRIES env retry_count (Nat.le_add_left _ _)).1
    (by omega)

/-- C3: date-mode chunk planning.  For every `start_year ≤ end_year` and
`years_per_chunk > 0`: index `i` is planned exactly while the i-th window
start `start_year + i*years_per_chunk` is at most `end_year` (iteration
stops at the first window start beyond `end_year`); chunk `i` covers the
year window `[start_year + i*ypc, min (start_year + (i+1)*ypc - 1)
end_year]` with date strings `<window start>-01-01` and
`<window end>-12-31`; and at the constants of `fetch_monthly_data.py`
(1938, 2018, 10) there are 9 chunks, the first covering
`1938-01-01..1947-12-31` and the last `2018-01-01..2018-12-31`. -/
theorem date_chunk_planning (sy ey ypc : Nat) (hse : sy ≤ ey) (hypc : 0 < ypc) :
    (∀ i, i < (create_date_ranges sy ey ypc hypc).length ↔ sy + i * ypc ≤ ey) ∧
    (∀ i, sy + i * ypc ≤ ey →
      (create_date_ranges sy ey ypc hypc)[i]? =
        some { start_year := sy + i * ypc,
               end_year := min (sy + (i + 1) * ypc - 1) ey,
               start_date := toString (sy + i * ypc) ++ "-01-01",
               end_date := toString (min (sy + (i + 1) * ypc - 1) ey) ++ "-12-31",
               filename := "FIPS10003_avg_" ++ toString (sy + i * ypc) ++ "_to_" ++
                 toString (min (sy + (i + 1) * ypc - 1) ey) ++ ".json" }) ∧
    (date_ranges.length = 9 ∧
      date_ranges[0]? = some { start_year := 1938, end_year := 1947,
                               start_date := "1938-01-01", end_date := "1947-12-31",
                               filename := "FIPS10003_avg_1938_to_1947.json" } ∧
      date_ranges[8]? = some { start_year := 2018, end_year := 2018,
                               start_date := "2018-01-01", end_date := "2018-12-31",
                               filename := "FIPS10003_avg_2018_to_2018.json" }) := by
  refine ⟨fun i => create_date_ranges_length_iff sy ey ypc hypc i, ?_, ?_⟩
  · intro i hi
    rw [create_date_ranges_getElem?, if_pos hi]
    have harith : sy + i * ypc + ypc - 1 = sy + (i + 1) * ypc - 1 := by
      have : (i + 1) * ypc = i * ypc + ypc := by ring
      omega
    rw [harith]
    rfl
  · rw [date_ranges_eq]
    exact ⟨rfl, by decide, by decide⟩

/-- Witness for C3 at the repository's constants. -/
theorem date_chunk_planning_witness :
    date_ranges.length = 9 ∧
    date_ranges[0]? = some { start_year := 1938, end_year := 1947,
                             start_date := "1938-01-01", end_date := "1947-12-31",
                             filename := "FIPS10003_avg_1938_to_1947.json" } ∧
    date_ranges[8]? = some { start_year := 2018, end_year := 2018,
                             start_date := "2018-01-01", end_date := "2018-12-31",
                             filename := "FIPS10003_avg_2018_to_2018.json" } :=
  (date_chunk_planning 1938 2018 10 (by decide) (by decide)).2.2

/-! ## Extractors for the date-mode run result -/

/-- The date-mode run terminated without an escaping exception. -/
def dRunOk : Except String DRunState → Bool
  | .ok _ => true
  | .error _ => false

def dSuccessfulOf : Except String DRunState → Nat
  | .ok st => st.successful
  | .error _ => 0

def dFailedOf : Except String DRunState → List String
  | .ok st => st.failed
  | .error _ => []

def dCompletedOf : Except String DRunState → List String
  | .ok st => st.completed
  | .error _ => []

def dFetchedOf : Except String DRunState → List String
  | .ok st => st.fetched
  | .error _ => []

def dSavedOf : Except String DRunState → List String
  | .ok st => st.saved
  | .error _ => []

/-- The error-outcome classes of claim C7 (everything except a decodable
2xx success body): transport error, any HTTP status, undecodable or
empty body. -/
def DResp.errorOutcome : DResp → Bool
  | .ok _ => false
  | .okUndecodable _ => true
  | .okEmpty => true
  | .httpErr _ => true
  | .netErr _ => true

theorem ChunkFate.isFailed_eq_not_isCompleted (f : ChunkFate) :
    f.isFailed = !f.isCompleted := by
  cases f <;> rfl

/-- C7: executor totality.  The offset-mode executor always returns a
terminal `(data, error)` pair with exactly one side present, for every
response sequence and starting retry count.  The date-mode executor
returns a terminal pair (no escaping exception) with exactly one side
present on every enumerated error outcome (transport error, HTTP error
status, undecodable or empty body).  At the run level, when the date
executor survives every chunk, neither controller aborts: every planned
chunk ends up counted completed or recorded failed (storage write
failures included), so one chunk's failure never aborts the rest. -/
theorem executor_totality (store : Nat → Bool) (envs : Nat → Nat → OResp)
    (saveOk : Nat → Bool) (dir : List String) (denvs : String → DResp)
    (dsaveOk : String → Bool) (hb : ∀ fn, dBenign denvs fn = true) :
    (∀ (env : Nat → OResp) (rc : Nat), (make_api_request env rc).exclusive = true) ∧
    (∀ resp : DResp, resp.errorOutcome = true →
      (d_make_api_request resp).result.isRet = true ∧
      (d_make_api_request resp).result.exclusive = true) ∧
    (runMain store envs saveOk).completed.length +
      (runMain store envs saveOk).failed_requests.length = num_requests ∧
    dRunOk (d_runMain dir denvs dsaveOk) = true ∧
    (dCompletedOf (d_runMain dir denvs dsaveOk)).length +
      (dFailedOf (d_runMain dir denvs dsaveOk)).length = date_ranges.length := by
  have hdrun := d_foldl_processChunk (d_check_existing_files dir) denvs dsaveOk
    date_ranges dInitRun (fun r _ _ => hb r.filename)
  refine ⟨?_, ?_, ?_, ?_, ?_⟩
  · intro env rc
    exact (make_api_request_invariant MAX_RETRIES env rc (Nat.le_add_left _ _)).2
  · intro resp h
    cases resp with
    | ok body => exact absurd h (by rw [DResp.errorOutcome]; simp)
    | okUndecodable e => exact ⟨rfl, rfl⟩
    | okEmpty => exact ⟨rfl, rfl⟩
    | httpErr e => exact ⟨rfl, rfl⟩
    | netErr e => exact ⟨rfl, rfl⟩
  · rw [runMain_spec]
    have hcong :
        (List.range num_requests).filter
            (fun i => (chunkFate (check_existing_files store) envs saveOk i).isFailed) =
          (List.range num_requests).filter
            (fun i =>
              !((chunkFate (check_existing_files store) envs saveOk i).isCompleted)) := by
      apply List.filter_congr
      intro a _
      rw [ChunkFate.isFailed_eq_not_isCompleted]
    have hsum := length_filter_bool_not
      (fun i => (chunkFate (check_existing_files store) envs saveOk i).isCompleted)
      (List.range num_requests)
    rw [List.length_range] at hsum
    simp only [List.length_map, hcong]
    exact hsum
  · rw [d_runMain, d_runOver, hdrun]
    rfl
  · rw [d_runMain, d_runOver, hdrun]
    have hcong :
        date_ranges.filter (fun r =>
            (dChunkFate (d_check_existing_files dir) denvs dsaveOk r.filename).isFailed) =
          date_ranges.filter (fun r =>
            !((dChunkFate (d_check_existing_files dir) denvs dsaveOk
                r.filename).isCompleted)) := by
      apply List.filter_congr
      intro a _
      rw [ChunkFate.isFailed_eq_not_isCompleted]
    have hsum := length_filter_bool_not
      (fun r =>
        (dChunkFate (d_check_existing_files dir) denvs dsaveOk r.filename).isCompleted)
      date_ranges
    simp only [dCompletedOf, dFailedOf, dInitRun, List.nil_append, List.length_map, hcong]
    exact hsum

/-- Witness for C7 on concrete oracles (empty stores, permanent 404 in
the offset mode, empty 2xx bodies in the date mode). -/
theorem executor_totality_witness :
    (∀ (env : Nat → OResp) (rc : Nat), (make_api_request env rc).exclusive = true) ∧
    (∀ resp : DResp, resp.errorOutcome = true →
      (d_make_api_request resp).result.isRet = true ∧
      (d_make_api_request resp).result.exclusive = true) ∧
    (runMain (fun _ => false) (fun _ _ => OResp.httpErr 404 "Not Found")
        (fun _ => true)).completed.length +
      (runMain (fun _ => false) (fun _ _ => OResp.httpErr 404 "Not Found")
        (fun _ => true)).failed_requests.length = num_requests ∧
    dRunOk (d_runMain [] (fun _ => DResp.okEmpty) (fun _ => true)) = true ∧
    (dCompletedOf (d_runMain [] (fun _ => DResp.okEmpty) (fun _ => true))).length +
      (dFailedOf (d_runMain [] (fun _ => DResp.okEmpty) (fun _ => true))).length =
      date_ranges.length :=
  executor_totality (fun _ => false) (fun _ _ => OResp.httpErr 404 "Not Found")
    (fun _ => true) [] (fun _ => DResp.okEmpty) (fun _ => true) (fun _ => rfl)

/-- C6: resume skip and partial-run safety.  Every planned chunk whose
file already exists is counted completed without the fetch executor ever
being invoked for it; the chunks actually fetched are exactly the
planned chunks missing from the store; and if the store holds `N` of the
`M = num_requests` planned chunks, a re-invocation fetches exactly
`M - N` chunks. -/
theorem resume_skip_partial_run (store : Nat → Bool) (envs : Nat → Nat → OResp)
    (saveOk : Nat → Bool) :
    (∀ i ∈ check_existing_files store,
      i ∉ (runMain store envs saveOk).fetched ∧
      i ∈ (runMain store envs saveOk).completed) ∧
    (runMain store envs saveOk).fetched =
      (List.range num_requests).filter (fun i => !(store i)) ∧
    (runMain store envs saveOk).fetched.length =
      num_requests - (check_existing_files store).length := by
  have hfetch : (runMain store envs saveOk).fetched =
      (List.range num_requests).filter (fun i => !(store i)) := by
    rw [runMain_spec]
    apply List.filter_congr
    intro i hi
    rw [chunkFate_isFetched]
    rw [List.mem_range] at hi
    by_cases hs : store i = true
    · rw [hs, decide_eq_true ((mem_check_existing_files store i).mpr ⟨by
        rw [num_requests, plannedChunkCount, LIMIT, TOTAL_RECORDS] at hi
        omega, hs⟩)]
    · rw [Bool.not_eq_true] at hs
      rw [hs, decide_eq_false (fun hmem =>
        by rw [mem_check_existing_files] at hmem; rw [hmem.2] at hs; exact absurd hs (by simp))]
  refine ⟨?_, hfetch, ?_⟩
  · intro i hi
    have hi' := (mem_check_existing_files store i).mp hi
    constructor
    · rw [hfetch, List.mem_filter]
      rintro ⟨-, hni⟩
      rw [hi'.2] at hni
      exact absurd hni (by simp)
    · rw [runMain_spec, List.mem_filter]
      have h39 : i ∈ List.range num_requests := by
        rw [List.mem_range, num_requests, plannedChunkCount, LIMIT, TOTAL_RECORDS]
        have := hi'.1
        omega
      refine ⟨h39, ?_⟩
      rw [chunkFate_skipped_of_mem hi]
      rfl
  · rw [hfetch]
    have hsum := length_filter_bool_not (fun i => store i) (List.range num_requests)
    rw [List.length_range] at hsum
    have hex : (check_existing_files store).length =
        ((List.range num_requests).filter (fun i => store i)).length := by
      rw [check_existing_files]
      rfl
    rw [hex]
    omega

/-- Witness for C6: with every file present, chunk 7 is skipped (never
fetched) and counted completed. -/
theorem resume_skip_partial_run_witness :
    7 ∉ (runMain (fun _ => true) (fun _ _ => OResp.netErr "unreachable")
      (fun _ => true)).fetched ∧
    7 ∈ (runMain (fun _ => true) (fun _ _ => OResp.netErr "unreachable")
      (fun _ => true)).completed :=
  (resume_skip_partial_run (fun _ => true) (fun _ _ => OResp.netErr "unreachable")
    (fun _ => true)).1 7 (by decide)

/-- C8: Run Report partition invariant, in both modes (date mode at the
repository's constants, assuming the executor survives every chunk).
The identifiers counted completed (pre-existing skips plus newly
successful saves) and the identifiers recorded in the failed list are
disjoint, and their union is exactly the planned chunk set. -/
theorem run_report_partition (store : Nat → Bool) (envs : Nat → Nat → OResp)
    (saveOk : Nat → Bool) (dir : List String) (denvs : String → DResp)
    (dsaveOk : String → Bool) (hb : ∀ fn, dBenign denvs fn = true) :
    (∀ i, ¬(i ∈ (runMain store envs saveOk).completed ∧
            i ∈ (runMain store envs saveOk).failed_requests.map Prod.fst)) ∧
    (∀ i, (i ∈ (runMain store envs saveOk).completed ∨
           i ∈ (runMain store envs saveOk).failed_requests.map Prod.fst) ↔
          i ∈ List.range num_requests) ∧
    (∀ fn, ¬(fn ∈ dCompletedOf (d_runMain dir denvs dsaveOk) ∧
             fn ∈ dFailedOf (d_runMain dir denvs dsaveOk))) ∧
    (∀ fn, (fn ∈ dCompletedOf (d_runMain dir denvs dsaveOk) ∨
            fn ∈ dFailedOf (d_runMain dir denvs dsaveOk)) ↔
           fn ∈ date_ranges.map (fun r => r.filename)) := by
  have hfailed_ids : (runMain store envs saveOk).failed_requests.map Prod.fst =
      (List.range num_requests).filter
        (fun i => (chunkFate (check_existing_files store) envs saveOk i).isFailed) := by
    rw [runMain_spec]
    exact map_fst_map_pair _ _
  have hcompleted : (runMain store envs saveOk).completed =
      (List.range num_requests).filter
        (fun i => (chunkFate (check_existing_files store) envs saveOk i).isCompleted) := by
    rw [runMain_spec]
  have hdrun := d_foldl_processChunk (d_check_existing_files dir) denvs dsaveOk
    date_ranges dInitRun (fun r _ _ => hb r.filename)
  have hdcompleted : dCompletedOf (d_runMain dir denvs dsaveOk) =
      (date_ranges.filter (fun r =>
        (dChunkFate (d_check_existing_files dir) denvs dsaveOk r.filename).isCompleted)).map
        (fun r => r.filename) := by
    rw [d_runMain, d_runOver, hdrun]
    rfl
  have hdfailed : dFailedOf (d_runMain dir denvs dsaveOk) =
      (date_ranges.filter (fun r =>
        (dChunkFate (d_check_existing_files dir) denvs dsaveOk r.filename).isFailed)).map
        (fun r => r.filename) := by
    rw [d_runMain, d_runOver, hdrun]
    rfl
  have hnodup : (date_ranges.map (fun r => r.filename)).Nodup := by
    rw [date_ranges_eq]
    decide
  refine ⟨?_, ?_, ?_, ?_⟩
  · rintro i ⟨h1, h2⟩
    rw [hcompleted, List.mem_filter] at h1
    rw [hfailed_ids, List.mem_filter] at h2
    exact ChunkFate.not_isCompleted_and_isFailed _ ⟨h1.2, h2.2⟩
  · intro i
    rw [hcompleted, hfailed_ids]
    constructor
    · rintro (h | h) <;> exact (List.mem_filter.mp h).1
    · intro h
      rcases ChunkFate.isCompleted_or_isFailed
          (chunkFate (check_existing_files store) envs saveOk i) with hf | hf
      · exact Or.inl (List.mem_filter.mpr ⟨h, hf⟩)
      · exact Or.inr (List.mem_filter.mpr ⟨h, hf⟩)
  · rintro fn ⟨h1, h2⟩
    rw [hdcompleted, List.mem_map] at h1
    rw [hdfailed, List.mem_map] at h2
    obtain ⟨r1, hr1, hfn1⟩ := h1
    obtain ⟨r2, hr2, hfn2⟩ := h2
    have hr1' := List.mem_of_mem_filter hr1
    have hr2' := List.mem_of_mem_filter hr2
    have hr12 : r1 = r2 :=
      List.inj_on_of_nodup_map hnodup hr1' hr2' (hfn1.trans hfn2.symm)
    subst hr12
    exact ChunkFate.not_isCompleted_and_isFailed _
      ⟨(List.mem_filter.mp hr1).2, (List.mem_filter.mp hr2).2⟩
  · intro fn
    rw [hdcompleted, hdfailed]
    constructor
    · rintro (h | h) <;>
      · rw [List.mem_map] at h
        obtain ⟨r, hr, hfn⟩ := h
        exact List.mem_map.mpr ⟨r, List.mem_of_mem_filter hr, hfn⟩
    · intro h
      obtain ⟨r, hr, hfn⟩ := List.mem_map.mp h
      rcases ChunkFate.isCompleted_or_isFailed
          (dChunkFate (d_check_existing_files dir) denvs dsaveOk r.filename) with hf | hf
      · exact Or.inl (List.mem_map.mpr ⟨r, List.mem_filter.mpr ⟨hr, hf⟩, hfn⟩)
      · exact Or.inr (List.mem_map.mpr ⟨r, List.mem_filter.mpr ⟨hr, hf⟩, hfn⟩)

/-- Witness for C8 on concrete oracles: chunk 3 of the offset run is
either completed or failed (it is planned), and the union property holds
at the first date-mode filename. -/
theorem run_report_partition_witness :
    ¬(3 ∈ (runMain (fun i => i % 2 == 0) (fun _ _ => OResp.httpErr 500 "Server Error")
        (fun _ => true)).completed ∧
      3 ∈ (runMain (fun i => i % 2 == 0) (fun _ _ => OResp.httpErr 500 "Server Error")
        (fun _ => true)).failed_requests.map Prod.fst) ∧
    ((3 ∈ (runMain (fun i => i % 2 == 0) (fun _ _ => OResp.httpErr 500 "Server Error")
        (fun _ => true)).completed ∨
      3 ∈ (runMain (fun i => i % 2 == 0) (fun _ _ => OResp.httpErr 500 "Server Error")
        (fun _ => true)).failed_requests.map Prod.fst) ↔
      3 ∈ List.range num_requests) ∧
    ((("FIPS10003_avg_1938_to_1947.json" ∈
        dCompletedOf (d_runMain [] (fun _ => DResp.okEmpty) (fun _ => true)) ∨
      "FIPS10003_avg_1938_to_1947.json" ∈
        dFailedOf (d_runMain [] (fun _ => DResp.okEmpty) (fun _ => true))) ↔
      "FIPS10003_avg_1938_to_1947.json" ∈ date_ranges.map (fun r => r.filename))) :=
  have h := run_report_partition (fun i => i % 2 == 0)
    (fun _ _ => OResp.httpErr 500 "Server Error") (fun _ => true) []
    (fun _ => DResp.okEmpty) (fun _ => true) (fun _ => rfl)
  ⟨h.1 3, h.2.1 3, h.2.2.2 "FIPS10003_avg_1938_to_1947.json"⟩

theorem chunkFate_eq_skipped_iff {existing : List Nat} {envs : Nat → Nat → OResp}
    {saveOk : Nat → Bool} {i : Nat} :
    chunkFate existing envs saveOk i = .skipped ↔ i ∈ existing := by
  constructor
  · intro h
    by_contra hex
    rw [chunkFate, if_neg hex] at h
    revert h
    by_cases hok : resultsOk (make_api_request (envs i) 0)
    · by_cases hsave : saveOk i
      · simp [hok, hsave]
      · simp [hok, hsave]
    · simp [hok]
  · exact chunkFate_skipped_of_mem

theorem dChunkFate_eq_skipped_iff {existing : List String} {envs : String → DResp}
    {saveOk : String → Bool} {fn : String} (hb : dBenign envs fn = true) :
    dChunkFate existing envs saveOk fn = .skipped ↔ fn ∈ existing := by
  constructor
  · intro h
    by_contra hex
    rw [dChunkFate, if_neg hex] at h
    rw [dBenign] at hb
    revert h
    rcases hres : (d_make_api_request (envs fn)).result with ⟨data, _err⟩ | m
    · by_cases hdt : dataTruthy data = true
      · by_cases hsave : saveOk fn
        · simp [hdt, hsave]
        · simp [hdt, hsave]
      · simp [hdt]
    · rw [hres] at hb
      exact absurd hb (by rw [DResult.isRet]; simp)
  · intro h
    rw [dChunkFate]
    simp [h]

theorem dChunkFate_skipped_of_mem {existing : List String} {envs : String → DResp}
    {saveOk : String → Bool} {fn : String} (h : fn ∈ existing) :
    dChunkFate existing envs saveOk fn = .skipped := by
  rw [dChunkFate]
  simp [h]

/-- C9: resume idempotence, in both modes.  After a completed run (no
entry in the failed list), a second invocation against the store the
first run produced — each mode's store extended by exactly the chunks
the first run saved — performs zero fetch attempts (every planned chunk
is skipped by the resume detector, whatever the second run's network
would answer), and the two runs' completed lists are identical. -/
theorem resume_idempotence (store : Nat → Bool) (envs envs2 : Nat → Nat → OResp)
    (saveOk saveOk2 : Nat → Bool)
    (hfail : (runMain store envs saveOk).failed_requests = [])
    (dir : List String) (denvs denvs2 : String → DResp)
    (dsaveOk dsaveOk2 : String → Bool)
    (hb : ∀ fn, dBenign denvs fn = true)
    (hdfail : dFailedOf (d_runMain dir denvs dsaveOk) = []) :
    ((runMain (fun i => store i || decide (i ∈ (runMain store envs saveOk).saved))
        envs2 saveOk2).fetched = [] ∧
      (runMain (fun i => store i || decide (i ∈ (runMain store envs saveOk).saved))
        envs2 saveOk2).completed = (runMain store envs saveOk).completed) ∧
    (dFetchedOf (d_runMain (dir ++ dSavedOf (d_runMain dir denvs dsaveOk))
        denvs2 dsaveOk2) = [] ∧
      dCompletedOf (d_runMain (dir ++ dSavedOf (d_runMain dir denvs dsaveOk))
        denvs2 dsaveOk2) = dCompletedOf (d_runMain dir denvs dsaveOk)) := by
  constructor
  -- offset mode
  · set fate1 := chunkFate (check_existing_files store) envs saveOk with hfate1
    have hfilter_failed : (List.range num_requests).filter (fun i => (fate1 i).isFailed) = [] := by
      have h := hfail
      rw [runMain_spec] at h
      exact List.map_eq_nil_iff.mp h
    have hAll : ∀ i ∈ List.range num_requests, (fate1 i).isCompleted = true := by
      intro i hi
      exact ChunkFate.isCompleted_of_not_isFailed
        (by
          intro hf
          have := List.filter_eq_nil_iff.mp hfilter_failed i hi
          exact this hf)
    have hcompleted1 : (runMain store envs saveOk).completed = List.range num_requests := by
      rw [runMain_spec]
      exact List.filter_eq_self.mpr hAll
    have hsaved1 : (runMain store envs saveOk).saved =
        (List.range num_requests).filter (fun i => (fate1 i).isStored) := by
      rw [runMain_spec]
    have hstore1 : ∀ i ∈ List.range num_requests,
        (store i || decide (i ∈ (runMain store envs saveOk).saved)) = true := by
      intro i hi
      rcases hf : fate1 i with - | - | e
      · have hex : i ∈ check_existing_files store := chunkFate_eq_skipped_iff.mp hf
        rw [((mem_check_existing_files store i).mp hex).2]
        rfl
      · have hmem : i ∈ (runMain store envs saveOk).saved := by
          rw [hsaved1, List.mem_filter]
          exact ⟨hi, by rw [hf]; rfl⟩
        rw [decide_eq_true hmem, Bool.or_true]
      · have := hAll i hi
        rw [hf] at this
        exact absurd this (by simp [ChunkFate.isCompleted])
    have h39 : (39 : Nat) = num_requests := by decide
    have hex2 : ∀ i ∈ List.range num_requests,
        i ∈ check_existing_files
          (fun i => store i || decide (i ∈ (runMain store envs saveOk).saved)) := by
      intro i hi
      rw [mem_check_existing_files]
      refine ⟨?_, hstore1 i hi⟩
      rw [List.mem_range] at hi
      omega
    constructor
    · rw [runMain_spec]
      apply List.filter_eq_nil_iff.mpr
      intro i hi
      rw [chunkFate_skipped_of_mem (hex2 i hi)]
      simp [ChunkFate.isFetched]
    · rw [runMain_spec, hcompleted1]
      apply List.filter_eq_self.mpr
      intro i hi
      rw [chunkFate_skipped_of_mem (hex2 i hi)]
      rfl
  -- date mode
  · set existing1 := d_check_existing_files dir with hex1def
    set dfate1 := dChunkFate existing1 denvs dsaveOk with hdfate1
    have hdrun1 := d_foldl_processChunk existing1 denvs dsaveOk
      date_ranges dInitRun (fun r _ _ => hb r.filename)
    have hfilter_failed :
        date_ranges.filter (fun r => (dfate1 r.filename).isFailed) = [] := by
      have h := hdfail
      rw [d_runMain, d_runOver, hdrun1] at h
      simp only [dFailedOf, dInitRun, List.nil_append] at h
      exact List.map_eq_nil_iff.mp h
    have hAll : ∀ r ∈ date_ranges, (dfate1 r.filename).isCompleted = true := by
      intro r hr
      exact ChunkFate.isCompleted_of_not_isFailed
        (fun hf => List.filter_eq_nil_iff.mp hfilter_failed r hr hf)
    have hcompleted1 : dCompletedOf (d_runMain dir denvs dsaveOk) =
        date_ranges.map (fun r => r.filename) := by
      rw [d_runMain, d_runOver, hdrun1]
      simp only [dCompletedOf, dInitRun, List.nil_append]
      rw [List.filter_eq_self.mpr hAll]
    have hsaved1 : dSavedOf (d_runMain dir denvs dsaveOk) =
        (date_ranges.filter (fun r => (dfate1 r.filename).isStored)).map
          (fun r => r.filename) := by
      rw [d_runMain, d_runOver, hdrun1]
      rfl
    have hpred : ∀ r ∈ date_ranges,
        ("FIPS10003_avg_".data.isPrefixOf r.filename.data &&
          ".json".data.isSuffixOf r.filename.data) = true := by
      rw [date_ranges_eq]
      decide
    have hex2 : ∀ r ∈ date_ranges,
        r.filename ∈ d_check_existing_files
          (dir ++ dSavedOf (d_runMain dir denvs dsaveOk)) := by
      intro r hr
      rw [d_check_existing_files, List.filter_append, List.mem_append]
      rcases hf : dfate1 r.filename with - | - | e
      · left
        exact (dChunkFate_eq_skipped_iff (hb r.filename)).mp hf
      · right
        rw [List.mem_filter]
        constructor
        · rw [hsaved1, List.mem_map]
          exact ⟨r, List.mem_filter.mpr ⟨hr, by rw [hf]; rfl⟩, rfl⟩
        · exact hpred r hr
      · have := hAll r hr
        rw [hf] at this
        exact absurd this (by simp [ChunkFate.isCompleted])
    have hdrun2 := d_foldl_processChunk
      (d_check_existing_files (dir ++ dSavedOf (d_runMain dir denvs dsaveOk)))
      denvs2 dsaveOk2 date_ranges dInitRun
      (fun r hr hnot => absurd (hex2 r hr) hnot)
    constructor
    · rw [d_runMain, d_runOver, hdrun2]
      simp only [dFetchedOf, dInitRun, List.nil_append]
      rw [List.filter_eq_nil_iff.mpr]
      · rfl
      · intro r hr
        rw [dChunkFate_skipped_of_mem (hex2 r hr)]
        simp [ChunkFate.isFetched]
    · rw [d_runMain, d_runOver, hdrun2, hcompleted1]
      simp only [dCompletedOf, dInitRun, List.nil_append]
      rw [List.filter_eq_self.mpr]
      intro r hr
      rw [dChunkFate_skipped_of_mem (hex2 r hr)]
      rfl

/-- Witness for C9: first runs that skip everything (offset) / fetch and
save everything (date), then a second invocation. -/
theorem resume_idempotence_witness :
    ((runMain (fun i => (fun _ => true) i ||
        decide (i ∈ (runMain (fun _ => true) (fun _ _ => OResp.netErr "x")
          (fun _ => true)).saved)) (fun _ _ => OResp.netErr "y") (fun _ => false)).fetched = [] ∧
      (runMain (fun i => (fun _ => true) i ||
        decide (i ∈ (runMain (fun _ => true) (fun _ _ => OResp.netErr "x")
          (fun _ => true)).saved)) (fun _ _ => OResp.netErr "y") (fun _ => false)).completed =
        (runMain (fun _ => true) (fun _ _ => OResp.netErr "x") (fun _ => true)).completed) ∧
    (dFetchedOf (d_runMain
        ([] ++ dSavedOf (d_runMain [] (fun _ => DResp.ok (JsonVal.obj [])) (fun _ => true)))
        (fun _ => DResp.netErr "y") (fun _ => false)) = [] ∧
      dCompletedOf (d_runMain
        ([] ++ dSavedOf (d_runMain [] (fun _ => DResp.ok (JsonVal.obj [])) (fun _ => true)))
        (fun _ => DResp.netErr "y") (fun _ => false)) =
        dCompletedOf (d_runMain [] (fun _ => DResp.ok (JsonVal.obj [])) (fun _ => true))) :=
  resume_idempotence (fun _ => true) (fun _ _ => OResp.netErr "x")
    (fun _ _ => OResp.netErr "y") (fun _ => true) (fun _ => false)
    (by rw [runMain_spec, List.map_eq_nil_iff]
        apply List.filter_eq_nil_iff.mpr
        intro i hi
        rw [chunkFate_skipped_of_mem (by
          rw [mem_check_existing_files]
          rw [List.mem_range] at hi
          exact ⟨by rw [num_requests, plannedChunkCount, LIMIT, TOTAL_RECORDS] at hi; omega,
            rfl⟩)]
        decide)
    [] (fun _ => DResp.ok (JsonVal.obj [])) (fun _ => DResp.netErr "y")
    (fun _ => true) (fun _ => false) (fun _ => rfl)
    (by rw [d_runMain, d_runOver, date_ranges_eq]; rfl)

/-- C4 counterexample: the claim asserts that a 2xx body lacking the
`results` key is treated as `Failed` and not persisted "in both the
offset-mode and date-mode paths".  In the date-mode path the opposite
happens: `make_api_request` substitutes `data['results'] = []` via
`data.get('results', [])`, returns the body as a success, and `main`
persists every such chunk — here all nine chunks of a fresh run are
saved, none fails, and the run counts nine successes. -/
theorem missing_results_counterexample :
    dSavedOf (d_runMain [] (fun _ => DResp.ok (JsonVal.obj [])) (fun _ => true)) =
      ["FIPS10003_avg_1938_to_1947.json", "FIPS10003_avg_1948_to_1957.json",
       "FIPS10003_avg_1958_to_1967.json", "FIPS10003_avg_1968_to_1977.json",
       "FIPS10003_avg_1978_to_1987.json", "FIPS10003_avg_1988_to_1997.json",
       "FIPS10003_avg_1998_to_2007.json", "FIPS10003_avg_2008_to_2017.json",
       "FIPS10003_avg_2018_to_2018.json"] ∧
    dFailedOf (d_runMain [] (fun _ => DResp.ok (JsonVal.obj [])) (fun _ => true)) = [] ∧
    dSuccessfulOf (d_runMain [] (fun _ => DResp.ok (JsonVal.obj [])) (fun _ => true)) = 9 := by
  rw [d_runMain, d_runOver, date_ranges_eq]
  exact ⟨rfl, rfl, rfl⟩

/-- C4 (amended): in the offset-mode path, a chunk that is not already
persisted and whose fetch returns a 2xx object body lacking `results`
is recorded `Failed` with error detail `"Unknown error"`, is attempted
exactly once (not retried), and is neither saved nor counted completed.
In the date-mode path, by contrast, the executor rewrites such a body to
carry an empty `results` list and returns it as a success (so the chunk
is persisted when storage succeeds, as the counterexample shows). -/
theorem missing_results_handling (store : Nat → Bool) (envs : Nat → Nat → OResp)
    (saveOk : Nat → Bool) (i : Nat) (fields : List (String × JsonVal))
    (hi : i ∈ List.range num_requests) (hstore : store i = false)
    (henv : envs i 0 = .ok (.obj fields))
    (hnores : (JsonVal.obj fields).containsKey "results" = false) :
    (i, "Unknown error") ∈ (runMain store envs saveOk).failed_requests ∧
    i ∉ (runMain store envs saveOk).saved ∧
    i ∉ (runMain store envs saveOk).completed ∧
    (make_api_request (envs i) 0).attempts = 1 ∧
    (∀ fs : List (String × JsonVal), (JsonVal.obj fs).containsKey "results" = false →
      d_make_api_request (.ok (.obj fs)) =
        { result := .ret (some (.obj (fs ++ [("results", JsonVal.arr [])]))) none,
          attempts := 1 }) := by
  have hex : i ∉ check_existing_files store := by
    intro hmem
    rw [mem_check_existing_files] at hmem
    rw [hstore] at hmem
    exact absurd hmem.2 (by simp)
  have hreq : make_api_request (envs i) 0 =
      { data := some (.obj fields), error := none, attempts := 1, slept := 0 } :=
    make_api_request_ok (envs i) 0 henv
  have hok : resultsOk { data := some (.obj fields), error := none, attempts := 1, slept := 0 } = false := by
    show ((JsonVal.obj fields).truthy && (JsonVal.obj fields).containsKey "results") = false
    rw [hnores, Bool.and_false]
  have hfate : chunkFate (check_existing_files store) envs saveOk i =
      .failed "Unknown error" := by
    rw [chunkFate, if_neg hex]
    simp only [hreq, hok, Bool.false_eq_true, if_false]
    rfl
  refine ⟨?_, ?_, ?_, ?_, ?_⟩
  · rw [runMain_spec]
    exact List.mem_map.mpr ⟨i, List.mem_filter.mpr ⟨hi, by rw [hfate]; rfl⟩,
      by rw [hfate]; rfl⟩
  · rw [runMain_spec]
    intro hmem
    have := (List.mem_filter.mp hmem).2
    rw [hfate] at this
    exact absurd this (by simp [ChunkFate.isStored])
  · rw [runMain_spec]
    intro hmem
    have := (List.mem_filter.mp hmem).2
    rw [hfate] at this
    exact absurd this (by simp [ChunkFate.isCompleted])
  · rw [hreq]
  · intro fs hfs
    have hany : fs.any (fun p => p.1 = "results") = false := hfs
    have hlookup : fs.lookup "results" = none := lookup_eq_none_of_not_containsKey hany
    have hget : dictGet fs "results" (.arr []) = .arr [] := by
      rw [dictGet, hlookup]
      rfl
    have hset : dictSet fs "results" (.arr []) = fs ++ [("results", JsonVal.arr [])] := by
      rw [dictSet, if_neg]
      rw [hany]
      exact Bool.false_ne_true
    rw [d_make_api_request.eq_def]
    simp only [hget, List.mapM_nil]
    simp only [show (pure [] : Option (List JsonVal)) = some [] from rfl, hset]

/-- Witness for C4 (amended) at chunk 0 with body `{"metadata": null}`. -/
theorem missing_results_handling_witness :
    (0, "Unknown error") ∈ (runMain (fun _ => false)
      (fun _ _ => OResp.ok (.obj [("metadata", JsonVal.null)])) (fun _ => true)).failed_requests ∧
    0 ∉ (runMain (fun _ => false)
      (fun _ _ => OResp.ok (.obj [("metadata", JsonVal.null)])) (fun _ => true)).saved ∧
    0 ∉ (runMain (fun _ => false)
      (fun _ _ => OResp.ok (.obj [("metadata", JsonVal.null)])) (fun _ => true)).completed ∧
    (make_api_request ((fun _ _ => OResp.ok (.obj [("metadata", JsonVal.null)])) 0) 0).attempts
      = 1 ∧
    (∀ fs : List (String × JsonVal), (JsonVal.obj fs).containsKey "results" = false →
      d_make_api_request (.ok (.obj fs)) =
        { result := .ret (some (.obj (fs ++ [("results", JsonVal.arr [])]))) none,
          attempts := 1 }) :=
  missing_results_handling (fun _ => false)
    (fun _ _ => OResp.ok (.obj [("metadata", JsonVal.null)])) (fun _ => true) 0
    [("metadata", JsonVal.null)] (by decide) rfl rfl (by decide)

end NoaaFetch
